import Mathlib

/-!
Verification of the core scoring and ground-truth-extraction logic of the
lexarena repository, shallowly embedded from
`src/src/evaluation/score_calculator.py` and
`src/src/preprocessing/ground_truth_extractor.py`.

Modelling conventions:
* Python `str` is modelled as `List Char` (the corpus under study is ASCII;
  `str.lower`, `str.strip` and the `\s` regex class are modelled on their
  ASCII fragment).
* Python `float` is modelled as `ℚ`; the properties under study are exact
  order/equality predicates on the computed values.
* Python `None` is `Option.none`, or the dedicated `PVal.none` constructor
  for values stored in prediction / ground-truth mappings.
* Methods lose their `self` argument; `self.tolerance` becomes an explicit
  first argument.
* Heterogeneous Python values appearing in the compared mappings are
  modelled by the flat type `PVal` (None / bool / number / string).  Python
  does not merge int and float, but the two are only distinguished by
  `str()` formatting, which no claim exercises.
-/

namespace LexArena

/-! ### Python string primitives -/

/-- ASCII lower-casing of one character, as done by `str.lower()`. -/
def pyLower (c : Char) : Char :=
  if 'A' ≤ c ∧ c ≤ 'Z' then Char.ofNat (c.toNat + 32) else c

/-- `str.lower()` on a whole string. -/
def lowerStr (s : List Char) : List Char := s.map pyLower

/-- The ASCII characters matched by the regex class `\s` and stripped by
`str.strip()`. -/
def isPySpace (c : Char) : Bool :=
  c == ' ' || c == '\t' || c == '\n' || c == '\r' || c == '\x0c' || c == '\x0b'

/-- `str.strip()` with no argument: drop whitespace from both ends. -/
def pyStrip (s : List Char) : List Char :=
  ((s.dropWhile isPySpace).reverse.dropWhile isPySpace).reverse

/-- Python substring containment, `sub in s`. -/
def containsSub (sub : List Char) : List Char → Bool
  | [] => sub.isPrefixOf []
  | c :: t => sub.isPrefixOf (c :: t) || containsSub sub t

/-- `s.find(sub, start)`: the least index `i ≥ start` at which `sub` occurs
in `s`, and `none` (Python: `-1`) if there is no such index. -/
def findPos (s sub : List Char) (start : Nat) : Option Nat :=
  (List.range (s.length + 1)).find? fun i => decide (start ≤ i) && sub.isPrefixOf (s.drop i)

/-- Numeric value of a string of decimal digits (as accumulated left to
right by positional reading). -/
def natOfDigits (l : List Char) : Nat :=
  l.foldl (fun n c => 10 * n + (c.toNat - 48)) 0

/-- Model of Python `float(s)` restricted to decimal literals
`[+-]? digits [. digits] [(e|E) [+-]? digits]` (each digit group possibly
empty, but at least one digit before the exponent).  The special literals
`inf` / `nan` and underscore separators accepted by CPython are not
modelled: no value of the repository under study produces them. -/
def pyFloat (l : List Char) : Option ℚ :=
  let sr : ℚ × List Char :=
    match l with
    | '-' :: r => (-1, r)
    | '+' :: r => (1, r)
    | _ => (1, l)
  let ip := sr.2.takeWhile Char.isDigit
  let r1 := sr.2.drop ip.length
  let fr : List Char × List Char :=
    match r1 with
    | '.' :: t => (t.takeWhile Char.isDigit, t.drop (t.takeWhile Char.isDigit).length)
    | _ => ([], r1)
  if ip.isEmpty && fr.1.isEmpty then none
  else
    let mant : ℚ := sr.1 * ((natOfDigits ip : ℚ) + (natOfDigits fr.1 : ℚ) / 10 ^ fr.1.length)
    match fr.2 with
    | [] => some mant
    | e :: t =>
      if e == 'e' || e == 'E' then
        let st : Int × List Char :=
          match t with
          | '-' :: t1 => (-1, t1)
          | '+' :: t1 => (1, t1)
          | _ => (1, t)
        let ed := st.1
        let digits := st.2.takeWhile Char.isDigit
        if digits.isEmpty || !(st.2.drop digits.length).isEmpty then none
        else some (mant * (10 : ℚ) ^ (ed * (natOfDigits digits : Int)))
      else none

/-! ### Values stored in prediction / ground-truth mappings -/

/-- A loosely-typed Python value as it appears in the predicted and
ground-truth mappings fed to the score calculator. -/
inductive PVal where
  | none
  | bool (b : Bool)
  | num (q : ℚ)
  | str (s : List Char)
  deriving DecidableEq

/-- `d.get(k)` on a Python dict (missing key yields `None`). -/
def pyGet (d : List (List Char × PVal)) (k : List Char) : PVal :=
  match d.find? (fun kv => kv.1 == k) with
  | some kv => kv.2
  | Option.none => PVal.none

/-- Python `==` between an `Optional[bool]` (a normalized prediction) and an
arbitrary raw value.  `None` equals only `None`; a bool equals the same
bool, and — because Python bools are ints — the numbers `1` / `0`; a bool
never equals a string. -/
def pyEqOptBool : Option Bool → PVal → Bool
  | Option.none, PVal.none => true
  | Option.none, _ => false
  | some b, PVal.bool c => b == c
  | some b, PVal.num q => (if b then (1 : ℚ) else 0) == q
  | some _, _ => false

/-- Decimal digit characters of a natural number. -/
def natDigits (n : Nat) : List Char := Nat.toDigits 10 n

/-- Fractional decimal digits of `q ∈ [0, 1)`, emitted until the expansion
terminates or the fuel runs out. -/
def ratFracDigits : Nat → ℚ → List Char
  | 0, _ => []
  | fuel + 1, q =>
    if q = 0 then []
    else
      let d := (⌊q * 10⌋).toNat
      Char.ofNat (48 + d) :: ratFracDigits fuel (q * 10 - d)

/-- Model of Python `str()` on a float with a short decimal expansion
(17 fractional digits of fuel; every number handled in the claims under
study terminates far earlier). -/
def pyStrOfNum (q : ℚ) : List Char :=
  (if q < 0 then ['-'] else []) ++ natDigits (⌊|q|⌋).toNat ++
    '.' :: (if |q| - ⌊|q|⌋ = 0 then ['0'] else ratFracDigits 17 (|q| - ⌊|q|⌋))

/-- Model of Python `str()` on a `PVal`. -/
def pyStrOfPVal : PVal → List Char
  | PVal.none => "None".data
  | PVal.bool b => if b then "True".data else "False".data
  | PVal.num q => pyStrOfNum q
  | PVal.str s => s

/-! ### ScoreCalculator: normalization helpers
(`src/src/evaluation/score_calculator.py`) -/

/-- Class constant `ScoreCalculator.TOLERANCE`. -/
def TOLERANCE : ℚ := 0.10

/-- Default value of the `tolerance` parameter of
`ScoreCalculator.__init__`. -/
def default_tolerance : ℚ := 0.10

/-- `ScoreCalculator._normalize_resolution_type`:
`str(value).lower().strip().replace(' ', '_').replace('-', '_')`, with
`None` mapped to the empty string. -/
def normalize_resolution_type (value : PVal) : List Char :=
  match value with
  | PVal.none => []
  | v =>
    ((pyStrip (lowerStr (pyStrOfPVal v))).map fun c => if c == ' ' then '_' else c).map
      fun c => if c == '-' then '_' else c

/-- `ScoreCalculator._normalize_boolean`. -/
def normalize_boolean (value : PVal) : Option Bool :=
  match value with
  | PVal.none => none
  | PVal.bool b => some b
  | PVal.str s =>
    let lower := pyStrip (lowerStr s)
    if lower == "yes".data || lower == "true".data || lower == "1".data then some true
    else if lower == "no".data || lower == "false".data || lower == "0".data then some false
    else none
  | PVal.num _ => none

/-- `ScoreCalculator._normalize_monetary`.  A Python bool passes the
`isinstance(value, (int, float))` test, and `float(True) = 1.0`. -/
def normalize_monetary (value : PVal) : Option ℚ :=
  match value with
  | PVal.none => none
  | PVal.bool b => some (if b then 1 else 0)
  | PVal.num q => some q
  | PVal.str s =>
    let cleaned := pyStrip (s.filter fun c => !(c == '$' || c == ','))
    if lowerStr cleaned == "null".data || lowerStr cleaned == "none".data ||
        lowerStr cleaned == "n/a".data || lowerStr cleaned == ([] : List Char) then none
    else pyFloat cleaned

/-- `ScoreCalculator._check_monetary_within_tolerance`.  Note that the
Python comparison `predicted == 0` is `False` when `predicted is None`, and
that the error ratio divides by the signed `actual`. -/
def check_monetary_within_tolerance (tolerance : ℚ) (predicted actual : Option ℚ) :
    Option Bool :=
  match actual with
  | Option.none => none
  | some a =>
    if a = 0 then some (predicted == some (0 : ℚ))
    else
      match predicted with
      | Option.none => some false
      | some p => some (decide (|p - a| / a ≤ tolerance))

/-! ### PredictionResult and ScoreCalculator.compare_single -/

/-- Which field a mismatch message in `PredictionResult.errors` refers to.
The source stores human-readable strings with both values interpolated;
the interpolated message text is abstracted to the field tag here (no claim
concerns the message contents, only which appends occur). -/
inductive ErrorTag where
  | resolutionType
  | disgorgement
  | penalty
  | interest
  | injunction
  | officerBar
  | conductRestriction
  deriving DecidableEq

/-- Dataclass `PredictionResult`. -/
structure PredictionResult where
  case_id : List Char
  resolution_type_correct : Option Bool := none
  disgorgement_correct : Option Bool := none
  penalty_correct : Option Bool := none
  interest_correct : Option Bool := none
  injunction_correct : Option Bool := none
  officer_bar_correct : Option Bool := none
  conduct_restriction_correct : Option Bool := none
  predicted : List (List Char × PVal) := []
  ground_truth : List (List Char × PVal) := []
  errors : List ErrorTag := []
  deriving DecidableEq

/-- `ScoreCalculator.compare_single`.  Resolution type is compared after
normalizing both sides; each boolean flag compares the normalized
prediction against the *raw* ground-truth value (Python
`pred == ground_truth.get(key)`); monetary fields go through
`_check_monetary_within_tolerance`. -/
def compare_single (tolerance : ℚ) (case_id : List Char)
    (predicted ground_truth : List (List Char × PVal)) : PredictionResult :=
  let pred_res := normalize_resolution_type (pyGet predicted "resolution_type".data)
  let actual_res := normalize_resolution_type (pyGet ground_truth "resolution_type".data)
  let resolution_type_correct : Option Bool :=
    if actual_res.isEmpty then none else some (pred_res == actual_res)
  let pred_disg := normalize_monetary (pyGet predicted "disgorgement_amount".data)
  let actual_disg := normalize_monetary (pyGet ground_truth "disgorgement_amount".data)
  let disgorgement_correct := check_monetary_within_tolerance tolerance pred_disg actual_disg
  let pred_pen := normalize_monetary (pyGet predicted "penalty_amount".data)
  let actual_pen := normalize_monetary (pyGet ground_truth "penalty_amount".data)
  let penalty_correct := check_monetary_within_tolerance tolerance pred_pen actual_pen
  let pred_int := normalize_monetary (pyGet predicted "prejudgment_interest".data)
  let actual_int := normalize_monetary (pyGet ground_truth "prejudgment_interest".data)
  let interest_correct := check_monetary_within_tolerance tolerance pred_int actual_int
  let pred_inj := normalize_boolean (pyGet predicted "has_injunction".data)
  let actual_inj := pyGet ground_truth "has_injunction".data
  let injunction_correct : Option Bool :=
    match actual_inj with
    | PVal.none => none
    | v => some (pyEqOptBool pred_inj v)
  let pred_bar := normalize_boolean (pyGet predicted "has_officer_director_bar".data)
  let actual_bar := pyGet ground_truth "has_officer_director_bar".data
  let officer_bar_correct : Option Bool :=
    match actual_bar with
    | PVal.none => none
    | v => some (pyEqOptBool pred_bar v)
  let pred_cond := normalize_boolean (pyGet predicted "has_conduct_restriction".data)
  let actual_cond := pyGet ground_truth "has_conduct_restriction".data
  let conduct_restriction_correct : Option Bool :=
    match actual_cond with
    | PVal.none => none
    | v => some (pyEqOptBool pred_cond v)
  { case_id := case_id
    resolution_type_correct := resolution_type_correct
    disgorgement_correct := disgorgement_correct
    penalty_correct := penalty_correct
    interest_correct := interest_correct
    injunction_correct := injunction_correct
    officer_bar_correct := officer_bar_correct
    conduct_restriction_correct := conduct_restriction_correct
    predicted := predicted
    ground_truth := ground_truth
    errors :=
      (if resolution_type_correct == some false then [ErrorTag.resolutionType] else []) ++
      (if disgorgement_correct == some false then [ErrorTag.disgorgement] else []) ++
      (if penalty_correct == some false then [ErrorTag.penalty] else []) ++
      (if interest_correct == some false then [ErrorTag.interest] else []) ++
      (if injunction_correct == some false then [ErrorTag.injunction] else []) ++
      (if officer_bar_correct == some false then [ErrorTag.officerBar] else []) ++
      (if conduct_restriction_correct == some false then [ErrorTag.conductRestriction] else []) }

/-! ### ModelScore and ScoreCalculator.calculate_model_score -/

/-- Dataclass `ModelScore`. -/
structure ModelScore where
  model_name : List Char
  resolution_type_accuracy : ℚ := 0
  disgorgement_accuracy : ℚ := 0
  penalty_accuracy : ℚ := 0
  interest_accuracy : ℚ := 0
  injunction_accuracy : ℚ := 0
  officer_bar_accuracy : ℚ := 0
  conduct_restriction_accuracy : ℚ := 0
  monetary_accuracy : ℚ := 0
  overall_score : ℚ := 0
  total_cases : Nat := 0
  resolution_scorable : Nat := 0
  disgorgement_scorable : Nat := 0
  penalty_scorable : Nat := 0
  interest_scorable : Nat := 0
  deriving DecidableEq

/-- The fourteen counters accumulated by the `for r in results` loop of
`calculate_model_score`. -/
structure Counts where
  res_correct : Nat
  res_total : Nat
  disg_correct : Nat
  disg_total : Nat
  pen_correct : Nat
  pen_total : Nat
  int_correct : Nat
  int_total : Nat
  inj_correct : Nat
  inj_total : Nat
  bar_correct : Nat
  bar_total : Nat
  cond_correct : Nat
  cond_total : Nat
  deriving DecidableEq

/-- All counters start at zero. -/
def Counts.init : Counts := ⟨0, 0, 0, 0, 0, 0, 0, 0, 0, 0, 0, 0, 0, 0⟩

/-- Contribution of one field value to its `total` counter:
`if x is not None: total += 1`. -/
def countOne (o : Option Bool) : Nat :=
  match o with
  | some _ => 1
  | _ => 0

/-- Contribution of one field value to its `correct` counter: the nested
`if x:` (`some false` is falsy, so only `some true` counts). -/
def countTrue (o : Option Bool) : Nat :=
  match o with
  | some true => 1
  | _ => 0

/-- One iteration of the counting loop: `if x is not None: total += 1;
if x: correct += 1` for each of the seven fields. -/
def tallyResult (c : Counts) (r : PredictionResult) : Counts where
  res_total := c.res_total + countOne r.resolution_type_correct
  res_correct := c.res_correct + countTrue r.resolution_type_correct
  disg_total := c.disg_total + countOne r.disgorgement_correct
  disg_correct := c.disg_correct + countTrue r.disgorgement_correct
  pen_total := c.pen_total + countOne r.penalty_correct
  pen_correct := c.pen_correct + countTrue r.penalty_correct
  int_total := c.int_total + countOne r.interest_correct
  int_correct := c.int_correct + countTrue r.interest_correct
  inj_total := c.inj_total + countOne r.injunction_correct
  inj_correct := c.inj_correct + countTrue r.injunction_correct
  bar_total := c.bar_total + countOne r.officer_bar_correct
  bar_correct := c.bar_correct + countTrue r.officer_bar_correct
  cond_total := c.cond_total + countOne r.conduct_restriction_correct
  cond_correct := c.cond_correct + countTrue r.conduct_restriction_correct

/-- The `for r in results` counting loop of `calculate_model_score`. -/
def scoreLoop (results : List PredictionResult) : Counts :=
  results.foldl tallyResult Counts.init

/-- Componentwise sum of two counter records (proof support for the loop
characterization). -/
def addCounts (a b : Counts) : Counts :=
  ⟨a.res_correct + b.res_correct, a.res_total + b.res_total,
   a.disg_correct + b.disg_correct, a.disg_total + b.disg_total,
   a.pen_correct + b.pen_correct, a.pen_total + b.pen_total,
   a.int_correct + b.int_correct, a.int_total + b.int_total,
   a.inj_correct + b.inj_correct, a.inj_total + b.inj_total,
   a.bar_correct + b.bar_correct, a.bar_total + b.bar_total,
   a.cond_correct + b.cond_correct, a.cond_total + b.cond_total⟩

/-- The counters described directly as counts over the whole collection
(what the loop is proved to compute). -/
def countsOf (results : List PredictionResult) : Counts where
  res_correct := results.countP fun r => r.resolution_type_correct == some true
  res_total := results.countP fun r => r.resolution_type_correct.isSome
  disg_correct := results.countP fun r => r.disgorgement_correct == some true
  disg_total := results.countP fun r => r.disgorgement_correct.isSome
  pen_correct := results.countP fun r => r.penalty_correct == some true
  pen_total := results.countP fun r => r.penalty_correct.isSome
  int_correct := results.countP fun r => r.interest_correct == some true
  int_total := results.countP fun r => r.interest_correct.isSome
  inj_correct := results.countP fun r => r.injunction_correct == some true
  inj_total := results.countP fun r => r.injunction_correct.isSome
  bar_correct := results.countP fun r => r.officer_bar_correct == some true
  bar_total := results.countP fun r => r.officer_bar_correct.isSome
  cond_correct := results.countP fun r => r.conduct_restriction_correct == some true
  cond_total := results.countP fun r => r.conduct_restriction_correct.isSome

/-- `ScoreCalculator.calculate_model_score`. -/
def calculate_model_score (model_name : List Char) (results : List PredictionResult) :
    ModelScore :=
  let c := scoreLoop results
  let resolution_type_accuracy : ℚ :=
    if 0 < c.res_total then 100 * c.res_correct / c.res_total else 0
  let disgorgement_accuracy : ℚ :=
    if 0 < c.disg_total then 100 * c.disg_correct / c.disg_total else 0
  let penalty_accuracy : ℚ :=
    if 0 < c.pen_total then 100 * c.pen_correct / c.pen_total else 0
  let interest_accuracy : ℚ :=
    if 0 < c.int_total then 100 * c.int_correct / c.int_total else 0
  let injunction_accuracy : ℚ :=
    if 0 < c.inj_total then 100 * c.inj_correct / c.inj_total else 0
  let officer_bar_accuracy : ℚ :=
    if 0 < c.bar_total then 100 * c.bar_correct / c.bar_total else 0
  let conduct_restriction_accuracy : ℚ :=
    if 0 < c.cond_total then 100 * c.cond_correct / c.cond_total else 0
  let monetary_scores : List ℚ :=
    (if 0 < c.disg_total then [disgorgement_accuracy] else []) ++
    (if 0 < c.pen_total then [penalty_accuracy] else []) ++
    (if 0 < c.int_total then [interest_accuracy] else [])
  let monetary_accuracy : ℚ :=
    if !monetary_scores.isEmpty then monetary_scores.sum / monetary_scores.length else 0
  let category_scores : List ℚ :=
    (if 0 < c.res_total then [resolution_type_accuracy] else []) ++
    (if !monetary_scores.isEmpty then [monetary_accuracy] else []) ++
    (if 0 < c.inj_total then [injunction_accuracy] else []) ++
    (if 0 < c.bar_total then [officer_bar_accuracy] else []) ++
    (if 0 < c.cond_total then [conduct_restriction_accuracy] else [])
  let overall_score : ℚ :=
    if !category_scores.isEmpty then category_scores.sum / category_scores.length else 0
  { model_name := model_name
    resolution_type_accuracy := resolution_type_accuracy
    disgorgement_accuracy := disgorgement_accuracy
    penalty_accuracy := penalty_accuracy
    interest_accuracy := interest_accuracy
    injunction_accuracy := injunction_accuracy
    officer_bar_accuracy := officer_bar_accuracy
    conduct_restriction_accuracy := conduct_restriction_accuracy
    monetary_accuracy := monetary_accuracy
    overall_score := overall_score
    total_cases := results.length
    resolution_scorable := c.res_total
    disgorgement_scorable := c.disg_total
    penalty_scorable := c.pen_total
    interest_scorable := c.int_total }

/-! ### ModelScore.to_dict -/

/-- A JSON-serializable Python value as produced by `ModelScore.to_dict`
(string / rounded float / int / nested dict). -/
inductive JVal where
  | num (q : ℚ)
  | int (n : Nat)
  | str (s : List Char)
  | dict (kvs : List (List Char × JVal))

/-- Round-half-to-even to an integer, the rounding mode of Python
`round`. -/
def roundHalfEven (q : ℚ) : Int :=
  let f := ⌊q⌋
  let r := q - f
  if r < 1 / 2 then f
  else if 1 / 2 < r then f + 1
  else if f % 2 = 0 then f else f + 1

/-- Python `round(x, 2)`, modelled as exact half-even rounding of the
rational value at two decimal places. -/
def pyRound2 (q : ℚ) : ℚ := (roundHalfEven (q * 100) : ℚ) / 100

/-- `ModelScore.to_dict`. -/
def ModelScore.to_dict (s : ModelScore) : JVal :=
  JVal.dict
    [("model_name".data, JVal.str s.model_name),
     ("overall_score".data, JVal.num (pyRound2 s.overall_score)),
     ("individual_scores".data, JVal.dict
       [("resolution_type".data, JVal.num (pyRound2 s.resolution_type_accuracy)),
        ("disgorgement".data, JVal.num (pyRound2 s.disgorgement_accuracy)),
        ("penalty".data, JVal.num (pyRound2 s.penalty_accuracy)),
        ("prejudgment_interest".data, JVal.num (pyRound2 s.interest_accuracy)),
        ("monetary_average".data, JVal.num (pyRound2 s.monetary_accuracy)),
        ("has_injunction".data, JVal.num (pyRound2 s.injunction_accuracy)),
        ("has_officer_director_bar".data, JVal.num (pyRound2 s.officer_bar_accuracy)),
        ("has_conduct_restriction".data, JVal.num (pyRound2 s.conduct_restriction_accuracy))]),
     ("scorable_counts".data, JVal.dict
       [("total_cases".data, JVal.int s.total_cases),
        ("resolution_type".data, JVal.int s.resolution_scorable),
        ("disgorgement".data, JVal.int s.disgorgement_scorable),
        ("penalty".data, JVal.int s.penalty_scorable),
        ("interest".data, JVal.int s.interest_scorable)])]

/-- Key list of a `JVal` dict (empty for non-dicts). -/
def JVal.keys : JVal → List (List Char)
  | JVal.dict kvs => kvs.map Prod.fst
  | _ => []

/-- Value list of a `JVal` dict (empty for non-dicts). -/
def JVal.values : JVal → List JVal
  | JVal.dict kvs => kvs.map Prod.snd
  | _ => []

/-- Lookup in a `JVal` dict. -/
def JVal.get : JVal → List Char → Option JVal
  | JVal.dict kvs, k => (kvs.find? fun kv => kv.1 == k).map Prod.snd
  | _, _ => none

/-! ### GroundTruthExtractor
(`src/src/preprocessing/ground_truth_extractor.py`)

The extractor functions take `Option (List Char)`: Python callers may pass
either a string or `None`, and every function begins with a falsy check
`if not text` that catches both `None` and the empty string. -/

/-- Python truthiness test `not text` for an optional string. -/
def isFalsyText (text : Option (List Char)) : Bool :=
  match text with
  | Option.none => true
  | some t => t.isEmpty

/-- Dataclass `GroundTruth`. -/
structure GroundTruth where
  resolution_type : List Char
  disgorgement_amount : Option ℚ
  penalty_amount : Option ℚ
  prejudgment_interest : Option ℚ
  has_injunction : Bool
  has_officer_director_bar : Bool
  has_conduct_restriction : Bool
  deriving DecidableEq

/-- `GroundTruthExtractor.extract_resolution_type`: an ordered decision
list of case-insensitive substring tests. -/
def extract_resolution_type (text : Option (List Char)) : List Char :=
  if isFalsyText text then "ongoing".data
  else
    let text_lower := lowerStr (text.getD [])
    if containsSub "settled action".data text_lower ||
        containsSub "filed settled action".data text_lower then "settled".data
    else if containsSub "consent".data text_lower &&
        containsSub "judgment".data text_lower then "settled".data
    else if containsSub "final judgment".data text_lower then "litigated".data
    else if containsSub "jury".data text_lower &&
        containsSub "verdict".data text_lower then "litigated".data
    else if containsSub "dismiss".data text_lower ||
        containsSub "dismissed with prejudice".data text_lower then "litigated".data
    else "ongoing".data

/-! #### Money-amount regex machinery

The three class patterns are
`MONEY_PATTERN          = \$\s*([\d,]+(?:\.\d+)?)\s*(?:million|billion)?`,
`MONEY_MILLIONS_PATTERN = \$\s*([\d,]+(?:\.\d+)?)\s*million`,
`MONEY_BILLIONS_PATTERN = \$\s*([\d,]+(?:\.\d+)?)\s*billion`,
searched with `re.search(..., re.IGNORECASE)` (leftmost match).  For these
patterns the backtracking behaviour of the regex engine collapses to pure
greedy matching: shortening the greedy `[\d,]+` run leaves a digit-or-comma
as the next character, shortening `(?:\.\d+)?` leaves a digit or the dot,
and shortening `\s*` leaves a whitespace character — none of which can
start `million` / `billion` or end the match differently.  So a match at a
given position exists iff the greedy reading succeeds, and `re.search`
returns the greedy group at the leftmost position where it succeeds. -/

/-- `c` is matched by the class `[\d,]`. -/
def isDigitComma (c : Char) : Bool := c.isDigit || c == ','

/-- The greedy group `[\d,]+(?:\.\d+)?` parsed at the head of `r1`
(which is the text right after `\$\s*`), or `none` if there is no leading
digit-or-comma character. -/
def moneyGroupAt (r1 : List Char) : Option (List Char) :=
  let ds := r1.takeWhile isDigitComma
  if ds.isEmpty then none
  else
    let r2 := r1.drop ds.length
    match r2 with
    | '.' :: r3 =>
      let fd := r3.takeWhile Char.isDigit
      if fd.isEmpty then some ds else some (ds ++ '.' :: fd)
    | _ => some ds

/-- Attempt to match `MONEY_PATTERN` at the head of `s`: a dollar sign,
optional whitespace, then the greedy group.  The trailing
`\s*(?:million|billion)?` is optional and cannot fail. -/
def matchBareAt (s : List Char) : Option (List Char) :=
  match s with
  | '$' :: r => moneyGroupAt (r.dropWhile isPySpace)
  | _ => none

/-- Attempt to match one of the unit patterns at the head of `s`:
like `matchBareAt`, but after the group and further `\s*` the literal
`unit` (`"million"` / `"billion"`, compared case-insensitively) must
follow. -/
def matchUnitAt (unit : List Char) (s : List Char) : Option (List Char) :=
  match s with
  | '$' :: r =>
    let r1 := r.dropWhile isPySpace
    match moneyGroupAt r1 with
    | some g =>
      let after := (r1.drop g.length).dropWhile isPySpace
      if unit.isPrefixOf (lowerStr after) then some g else none
    | Option.none => none
  | _ => none

/-- `re.search` for `MONEY_PATTERN`: the group of the leftmost match. -/
def searchBare : List Char → Option (List Char)
  | [] => none
  | c :: rest =>
    match matchBareAt (c :: rest) with
    | some g => some g
    | Option.none => searchBare rest

/-- `re.search` for a unit pattern: the group of the leftmost match. -/
def searchUnit (unit : List Char) : List Char → Option (List Char)
  | [] => none
  | c :: rest =>
    match matchUnitAt unit (c :: rest) with
    | some g => some g
    | Option.none => searchUnit unit rest

/-- `GroundTruthExtractor._parse_money_amount`: strip commas, parse with
`float`, and scale.  After comma removal a captured group has the shape
`digits* ['.' digits+]`, on which `float` fails exactly when no digits
remain at all; `parseGroupFloat` is the restriction of `float()` to that
shape. -/
def parseGroupFloat (l : List Char) : Option ℚ :=
  let ip := l.takeWhile Char.isDigit
  let r := l.drop ip.length
  match r with
  | [] => if ip.isEmpty then none else some (natOfDigits ip : ℚ)
  | '.' :: fr =>
    let fd := fr.takeWhile Char.isDigit
    if !(fr.drop fd.length).isEmpty then none
    else if ip.isEmpty && fd.isEmpty then none
    else some ((natOfDigits ip : ℚ) + (natOfDigits fd : ℚ) / 10 ^ fd.length)
  | _ => none

/-- `_parse_money_amount` with the multiplier chosen by the
`is_millions` / `is_billions` flags. -/
def parse_money_amount (amount_str : List Char) (mult : ℚ) : Option ℚ :=
  match parseGroupFloat (amount_str.filter fun c => !(c == ',')) with
  | some q => some (q * mult)
  | Option.none => none

/-- The body of the `while True` loop of `_extract_amount_after_keyword`
once a keyword occurrence window has been cut out: try the billions
pattern, then millions, then the bare pattern; on the first regex match
the whole extraction returns the parse result (which is `none` when the
captured group has no digits).  `none` here means that no pattern matched
and the scan goes on. -/
def windowCheck (search_text : List Char) : Option (Option ℚ) :=
  match searchUnit "billion".data search_text with
  | some g => some (parse_money_amount g 1000000000)
  | Option.none =>
    match searchUnit "million".data search_text with
    | some g => some (parse_money_amount g 1000000)
    | Option.none =>
      match searchBare search_text with
      | some g => some (parse_money_amount g 1)
      | Option.none => none

/-- The `while True` loop of `_extract_amount_after_keyword` for one
keyword: find the next occurrence at or after `pos` in the lowered text,
inspect `text[pos:pos + 200]`, and on no regex match continue after the
occurrence (`pos += len(keyword)`).  `fuel` bounds the iteration count;
the callers pass `text.length + 1`, enough for any nonempty keyword. -/
def scanKeyword (text text_lower keyword : List Char) : Nat → Nat → Option (Option ℚ)
  | _, 0 => none
  | pos, fuel + 1 =>
    match findPos text_lower keyword pos with
    | Option.none => none
    | some p =>
      match windowCheck ((text.drop p).take 200) with
      | some r => some r
      | Option.none => scanKeyword text text_lower keyword (p + keyword.length) fuel

/-- The `for keyword in keywords` loop: the first keyword whose scan hits
a regex match decides the result. -/
def scanKeywords (text text_lower : List Char) : List (List Char) → Option (Option ℚ)
  | [] => none
  | keyword :: rest =>
    match scanKeyword text text_lower keyword 0 (text.length + 1) with
    | some r => some r
    | Option.none => scanKeywords text text_lower rest

/-- `GroundTruthExtractor._extract_amount_after_keyword`. -/
def extract_amount_after_keyword (text : Option (List Char))
    (keywords : List (List Char)) : Option ℚ :=
  if isFalsyText text then none
  else
    let t := text.getD []
    match scanKeywords t (lowerStr t) keywords with
    | some r => r
    | Option.none => none

/-- `GroundTruthExtractor.extract_disgorgement_amount`. -/
def extract_disgorgement_amount (text : Option (List Char)) : Option ℚ :=
  extract_amount_after_keyword text
    ["disgorgement of".data, "disgorgement totaling".data, "disgorge".data,
     "disgorgement".data]

/-- `GroundTruthExtractor.extract_penalty_amount`. -/
def extract_penalty_amount (text : Option (List Char)) : Option ℚ :=
  extract_amount_after_keyword text
    ["civil penalty of".data, "civil penalties of".data, "civil penalty totaling".data,
     "penalty of".data, "penalties of".data, "civil monetary penalty".data]

/-- `GroundTruthExtractor.extract_prejudgment_interest`. -/
def extract_prejudgment_interest (text : Option (List Char)) : Option ℚ :=
  extract_amount_after_keyword text
    ["prejudgment interest of".data, "prejudgment interest totaling".data,
     "pre-judgment interest of".data, "prejudgment interest".data]

/-- `GroundTruthExtractor.extract_has_injunction`. -/
def extract_has_injunction (text : Option (List Char)) : Bool :=
  if isFalsyText text then false
  else
    let text_lower := lowerStr (text.getD [])
    containsSub "injunction".data text_lower ||
    containsSub "injunctive relief".data text_lower ||
    containsSub "enjoin".data text_lower ||
    containsSub "permanently restrained".data text_lower ||
    containsSub "permanent restraining".data text_lower

/-- `GroundTruthExtractor.extract_has_officer_director_bar`. -/
def extract_has_officer_director_bar (text : Option (List Char)) : Bool :=
  if isFalsyText text then false
  else
    let text_lower := lowerStr (text.getD [])
    (containsSub "officer".data text_lower && containsSub "director".data text_lower &&
      containsSub "bar".data text_lower) ||
    containsSub "barred from serving as an officer".data text_lower ||
    containsSub "barred from serving as a director".data text_lower ||
    containsSub "officer and director bar".data text_lower ||
    containsSub "o&d bar".data text_lower

/-- `GroundTruthExtractor.extract_has_conduct_restriction`.  The `and` /
`or` precedence of the source expression is preserved literally
(`and` binds tighter than `or`). -/
def extract_has_conduct_restriction (text : Option (List Char)) : Bool :=
  if isFalsyText text then false
  else
    let text_lower := lowerStr (text.getD [])
    containsSub "conduct-based injunction".data text_lower ||
    containsSub "trading restriction".data text_lower ||
    containsSub "penny stock bar".data text_lower ||
    containsSub "industry bar".data text_lower ||
    containsSub "barred from the securities industry".data text_lower ||
    containsSub "barred from associating".data text_lower ||
    containsSub "prohibited from participating".data text_lower ||
    (containsSub "prohibit".data text_lower && containsSub "trading".data text_lower) ||
    (containsSub "prohibited from".data text_lower && containsSub "trading".data text_lower) ||
    (containsSub "restrict".data text_lower && containsSub "trading".data text_lower) ||
    containsSub "trading in any brokerage account".data text_lower

/-- `GroundTruthExtractor.extract`. -/
def extract (text : Option (List Char)) : GroundTruth where
  resolution_type := extract_resolution_type text
  disgorgement_amount := extract_disgorgement_amount text
  penalty_amount := extract_penalty_amount text
  prejudgment_interest := extract_prejudgment_interest text
  has_injunction := extract_has_injunction text
  has_officer_director_bar := extract_has_officer_director_bar text
  has_conduct_restriction := extract_has_conduct_restriction text

/-! ### JSON values and a model of `json.loads`

`parse_llm_response` relies on `json.loads`.  The parser below implements
the JSON grammar as accepted by the Python `json` module: leading/trailing
whitespace, the seven value forms, the leading-zero rule for numbers,
string escapes (including `\uXXXX`, decoded without surrogate pairing),
and rejection of trailing garbage.  The non-standard `NaN` / `Infinity`
literals accepted by CPython are not modelled.  Object member lists are
kept in textual order (duplicate keys are not collapsed; the code under
study only tests key membership and returns the object opaquely). -/

inductive Json where
  | null
  | jbool (b : Bool)
  | num (q : ℚ)
  | jstr (s : List Char)
  | arr (xs : List Json)
  | obj (kvs : List (List Char × Json))

/-- JSON structural whitespace. -/
def isJsonWs (c : Char) : Bool := c == ' ' || c == '\t' || c == '\n' || c == '\r'

/-- Value of one hexadecimal digit. -/
def hexVal (c : Char) : Option Nat :=
  if c.isDigit then some (c.toNat - 48)
  else if 'a' ≤ c ∧ c ≤ 'f' then some (c.toNat - 87)
  else if 'A' ≤ c ∧ c ≤ 'F' then some (c.toNat - 55)
  else none

/-- Parse the body of a JSON string (after the opening quote), returning
the decoded characters and the remainder after the closing quote. -/
def parseJString : List Char → Option (List Char × List Char)
  | [] => none
  | '"' :: r => some ([], r)
  | '\\' :: 'u' :: h1 :: h2 :: h3 :: h4 :: r =>
    match hexVal h1, hexVal h2, hexVal h3, hexVal h4 with
    | some a, some b, some c, some d =>
      (parseJString r).map fun p => (Char.ofNat (((a * 16 + b) * 16 + c) * 16 + d) :: p.1, p.2)
    | _, _, _, _ => none
  | '\\' :: c :: r =>
    let ec : Option Char :=
      match c with
      | '"' => some '"'
      | '\\' => some '\\'
      | '/' => some '/'
      | 'b' => some '\x08'
      | 'f' => some '\x0c'
      | 'n' => some '\n'
      | 'r' => some '\r'
      | 't' => some '\t'
      | _ => none
    match ec with
    | some d => (parseJString r).map fun p => (d :: p.1, p.2)
    | Option.none => none
  | c :: r =>
    if c.toNat < 32 then none
    else (parseJString r).map fun p => (c :: p.1, p.2)

/-- Parse a JSON number at the head of the input, following the `json`
module's number regex: `-? (0 | [1-9][0-9]*) (\.[0-9]+)? ([eE][-+]?[0-9]+)?`
with the fraction and exponent groups optional (an ill-formed tail is
simply left unconsumed, as with a regex). -/
def parseNumber (l : List Char) : Option (ℚ × List Char) :=
  let sr : ℚ × List Char :=
    match l with
    | '-' :: r => (-1, r)
    | _ => (1, l)
  match sr.2 with
  | [] => none
  | c :: _ =>
    if !c.isDigit then none
    else
      let ipart : List Char := if c == '0' then ['0'] else sr.2.takeWhile Char.isDigit
      let r1 := sr.2.drop ipart.length
      let fd : List Char :=
        match r1 with
        | '.' :: t => t.takeWhile Char.isDigit
        | _ => []
      let r2 := if fd.isEmpty then r1 else r1.drop (fd.length + 1)
      let mant : ℚ := sr.1 * ((natOfDigits ipart : ℚ) + (natOfDigits fd : ℚ) / 10 ^ fd.length)
      match r2 with
      | [] => some (mant, [])
      | e :: t =>
        if e == 'e' || e == 'E' then
          let st : Int × List Char :=
            match t with
            | '+' :: t1 => (1, t1)
            | '-' :: t1 => (-1, t1)
            | _ => (1, t)
          let ed := st.2.takeWhile Char.isDigit
          if ed.isEmpty then some (mant, r2)
          else some (mant * (10 : ℚ) ^ (st.1 * (natOfDigits ed : Int)), st.2.drop ed.length)
        else some (mant, r2)

mutual

/-- Parse one JSON value (leading whitespace allowed), fuel-bounded. -/
def parseValue : Nat → List Char → Option (Json × List Char)
  | 0, _ => none
  | fuel + 1, l =>
    match l.dropWhile isJsonWs with
    | [] => none
    | c :: r =>
      if c == '"' then (parseJString r).map fun p => (Json.jstr p.1, p.2)
      else if c == '\x7b' then
        match r.dropWhile isJsonWs with
        | '\x7d' :: rest => some (Json.obj [], rest)
        | r1 => (parseObjMembers fuel r1).map fun p => (Json.obj p.1, p.2)
      else if c == '[' then
        match r.dropWhile isJsonWs with
        | ']' :: rest => some (Json.arr [], rest)
        | _ => (parseArrElems fuel r).map fun p => (Json.arr p.1, p.2)
      else if c == 't' then
        if "rue".data.isPrefixOf r then some (Json.jbool true, r.drop 3) else none
      else if c == 'f' then
        if "alse".data.isPrefixOf r then some (Json.jbool false, r.drop 4) else none
      else if c == 'n' then
        if "ull".data.isPrefixOf r then some (Json.null, r.drop 3) else none
      else (parseNumber (c :: r)).map fun p => (Json.num p.1, p.2)

/-- Parse the members of a JSON object after the opening brace (first
non-whitespace character must start a string key). -/
def parseObjMembers : Nat → List Char → Option (List (List Char × Json) × List Char)
  | 0, _ => none
  | fuel + 1, l =>
    match l with
    | '"' :: r =>
      match parseJString r with
      | some (k, r1) =>
        match r1.dropWhile isJsonWs with
        | ':' :: r2 =>
          match parseValue fuel r2 with
          | some (v, r3) =>
            match r3.dropWhile isJsonWs with
            | ',' :: r4 =>
              match parseObjMembers fuel (r4.dropWhile isJsonWs) with
              | some (kvs, r5) => some ((k, v) :: kvs, r5)
              | Option.none => none
            | '\x7d' :: r4 => some ([(k, v)], r4)
            | _ => none
          | Option.none => none
        | _ => none
      | Option.none => none
    | _ => none

/-- Parse the elements of a JSON array after the opening bracket (the
array is known to be nonempty). -/
def parseArrElems : Nat → List Char → Option (List Json × List Char)
  | 0, _ => none
  | fuel + 1, l =>
    match parseValue fuel l with
    | some (v, r) =>
      match r.dropWhile isJsonWs with
      | ',' :: r1 =>
        match parseArrElems fuel r1 with
        | some (vs, r2) => some (v :: vs, r2)
        | Option.none => none
      | ']' :: r1 => some ([v], r1)
      | _ => none
    | Option.none => none

end

/-- Model of `json.loads`: parse one value and reject trailing non-space
input.  The fuel `2 * length + 2` is sufficient: every recursive descent
step consumes at least one character for every two fuel units spent. -/
def jsonLoads (s : List Char) : Option Json :=
  match parseValue (2 * s.length + 2) s with
  | some (j, rest) => if (rest.dropWhile isJsonWs).isEmpty then some j else none
  | Option.none => none

/-- Python `key in parsed` for a parsed JSON object (`false` on non-dicts;
the call sites only apply it to values parsed from brace-initial text,
which are always objects). -/
def Json.hasKey : Json → List Char → Bool
  | Json.obj kvs, k => kvs.any fun kv => kv.1 == k
  | _, _ => false

/-! ### parse_llm_response
(`src/src/evaluation/score_calculator.py`)

Strategy 1 uses `re.search(r'```json\s*(.*?)\s*```', text, re.DOTALL)`.
For this pattern the engine semantics collapse to: find the leftmost
occurrence of the literal fence opener that is followed (at any distance)
by a closing fence; skip the maximal whitespace run after the opener; the
lazy group then extends to the first position from which skipping maximal
whitespace lands exactly on a closing fence. -/

/-- The closing-fence scan: the shortest prefix of the input after which
skipping whitespace lands on three backticks, or `none` when no closing
fence exists. -/
def fenceClose : List Char → Option (List Char)
  | [] => none
  | c :: r =>
    if "```".data.isPrefixOf ((c :: r).dropWhile isPySpace) then some []
    else (fenceClose r).map fun g => c :: g

/-- The group of the leftmost successful match of the fenced-block
pattern. -/
def fencedGroup : List Char → Option (List Char)
  | [] => none
  | c :: rest =>
    if "```json".data.isPrefixOf (c :: rest) then
      match fenceClose ((rest.drop 6).dropWhile isPySpace) with
      | some g => some g
      | Option.none => fencedGroup rest
    else fencedGroup rest

/-- `c` is matched by the class `[^{}]`. -/
def isNotBrace (c : Char) : Bool := !(c == '\x7b' || c == '\x7d')

/-- Strategy 3 uses `re.findall(r'\{[^{}]*(?:\{[^{}]*\}[^{}]*)*\}', text)`.
`braceBody` matches the tail of the pattern after the opening brace:
alternating non-brace runs and single-depth braced groups, ending at a
closing brace; backtracking cannot rescue a failure, because every
shortened greedy run leaves a character that cannot match the next literal
brace. -/
def braceBody : Nat → List Char → Option (List Char × List Char)
  | 0, _ => none
  | fuel + 1, l =>
    let t := l.takeWhile isNotBrace
    match l.drop t.length with
    | '\x7d' :: r => some (t ++ ['\x7d'], r)
    | '\x7b' :: r =>
      let u := r.takeWhile isNotBrace
      match r.drop u.length with
      | '\x7d' :: r2 =>
        (braceBody fuel r2).map fun p => (t ++ '\x7b' :: (u ++ '\x7d' :: p.1), p.2)
      | _ => none
    | _ => none

/-- `re.findall` for the brace pattern: scan left to right, and continue
after the end of each match (matches are non-overlapping). -/
def braceFindAll : Nat → List Char → List (List Char)
  | 0, _ => []
  | _, [] => []
  | fuel + 1, c :: r =>
    if c == '\x7b' then
      match braceBody (r.length + 1) r with
      | some (m, rest) => ('\x7b' :: m) :: braceFindAll fuel rest
      | Option.none => braceFindAll fuel r
    else braceFindAll fuel r

/-- The `for match in matches` loop of strategy 3: the first candidate
that parses as JSON and contains one of the expected keys. -/
def tryCandidates : List (List Char) → Option Json
  | [] => none
  | c :: rest =>
    match jsonLoads c with
    | some j =>
      if j.hasKey "resolution_type".data || j.hasKey "has_injunction".data then some j
      else tryCandidates rest
    | Option.none => tryCandidates rest

/-- Strategies 2 and 3 of `parse_llm_response` (reached when strategy 1
finds no fenced block or its contents fail to parse). -/
def parseLlmTail (response_text : List Char) : Json :=
  match jsonLoads response_text with
  | some j => j
  | Option.none =>
    match tryCandidates (braceFindAll (response_text.length + 1) response_text) with
    | some j => j
    | Option.none => Json.obj []

/-- `parse_llm_response`. -/
def parse_llm_response (response_text : List Char) : Json :=
  match fencedGroup response_text with
  | some g =>
    match jsonLoads g with
    | some j => j
    | Option.none => parseLlmTail response_text
  | Option.none => parseLlmTail response_text

/-! ### Specification-side definitions

The definitions in this block follow the *wording of the specification /
claims*, not the source, and exist to be compared with the source-derived
definitions above (refinement-style statements). -/

/-- Claim C2's decision list for the resolution type, as worded in the
spec (the source's redundant disjuncts `"filed settled action"` and
`"dismissed with prejudice"` are absent; both are superstrings of
phrases already tested). -/
def resolution_type_claimed (text : Option (List Char)) : List Char :=
  let text_lower := lowerStr (text.getD [])
  if containsSub "settled action".data text_lower ||
      (containsSub "consent".data text_lower && containsSub "judgment".data text_lower) then
    "settled".data
  else if containsSub "final judgment".data text_lower ||
      (containsSub "jury".data text_lower && containsSub "verdict".data text_lower) ||
      containsSub "dismiss".data text_lower then
    "litigated".data
  else "ongoing".data

/-- Claim C3's per-field accuracy: `100 × (count of true) / (count of
non-null entries)`, or `0` when no entry is non-null. -/
def field_accuracy_spec (results : List PredictionResult)
    (f : PredictionResult → Option Bool) : ℚ :=
  let scorable := results.countP fun r => (f r).isSome
  if 0 < scorable then (100 * (results.countP fun r => f r == some true) : ℚ) / scorable
  else 0

/-- Number of scorable (non-null) entries of a field. -/
def scorable_count (results : List PredictionResult)
    (f : PredictionResult → Option Bool) : Nat :=
  results.countP fun r => (f r).isSome

/-- The unweighted mean of a list of percentages, `0` for the empty
list. -/
def mean_or_zero (l : List ℚ) : ℚ := if l.isEmpty then 0 else l.sum / l.length

/-- Claim C3's monetary composite inputs: the three monetary per-field
accuracies, restricted to fields with at least one scorable case. -/
def monetary_fields_spec (results : List PredictionResult) : List ℚ :=
  (([(scorable_count results (fun r => r.disgorgement_correct),
      field_accuracy_spec results fun r => r.disgorgement_correct),
     (scorable_count results (fun r => r.penalty_correct),
      field_accuracy_spec results fun r => r.penalty_correct),
     (scorable_count results (fun r => r.interest_correct),
      field_accuracy_spec results fun r => r.interest_correct)] :
    List (Nat × ℚ)).filter fun x => x.1 != 0).map Prod.snd

/-- Claim C3's five top-level categories, each included only if it had at
least one scorable case. -/
def category_list_spec (results : List PredictionResult) : List ℚ :=
  (if scorable_count results (fun r => r.resolution_type_correct) != 0 then
    [field_accuracy_spec results fun r => r.resolution_type_correct] else []) ++
  (if !(monetary_fields_spec results).isEmpty then
    [mean_or_zero (monetary_fields_spec results)] else []) ++
  (if scorable_count results (fun r => r.injunction_correct) != 0 then
    [field_accuracy_spec results fun r => r.injunction_correct] else []) ++
  (if scorable_count results (fun r => r.officer_bar_correct) != 0 then
    [field_accuracy_spec results fun r => r.officer_bar_correct] else []) ++
  (if scorable_count results (fun r => r.conduct_restriction_correct) != 0 then
    [field_accuracy_spec results fun r => r.conduct_restriction_correct] else [])

/-- The keyword occurrence positions scanned by
`_extract_amount_after_keyword`: at each found position the next search
resumes after the occurrence (`pos += len(keyword)`). -/
def keywordOccurrences (text_lower keyword : List Char) : Nat → Nat → List Nat
  | _, 0 => []
  | pos, fuel + 1 =>
    match findPos text_lower keyword pos with
    | Option.none => []
    | some p => p :: keywordOccurrences text_lower keyword (p + keyword.length) fuel

/-- Claim C6 as amended, worded declaratively: keywords in list order,
occurrences in scan order, each occurrence inspecting the 200-character
window; the first window at which any money pattern matches decides the
result, which is the parse of the highest-priority match there (possibly
null when the captured group has no digits). -/
def extract_amount_claimed (text : Option (List Char))
    (keywords : List (List Char)) : Option ℚ :=
  let t := text.getD []
  let text_lower := lowerStr t
  (keywords.findSome? fun kw =>
    (keywordOccurrences text_lower kw 0 (t.length + 1)).findSome? fun p =>
      windowCheck ((t.drop p).take 200)).join

/-! ## Helper lemmas -/

theorem containsSub_iff (sub s : List Char) : containsSub sub s = true ↔ sub <:+: s := by
  induction s with
  | nil =>
    simp [containsSub, List.isPrefixOf_iff_prefix, List.prefix_nil, List.infix_nil]
  | cons c t ih =>
    simp [containsSub, List.isPrefixOf_iff_prefix, ih, List.infix_cons_iff, Bool.or_eq_true]

theorem containsSub_trans {a b c : List Char} (h1 : containsSub a b = true)
    (h2 : containsSub b c = true) : containsSub a c = true := by
  rw [containsSub_iff] at h1 h2 ⊢
  exact h1.trans h2

theorem bool_or_absorb (a b : Bool) (h : b = true → a = true) : (a || b) = a := by
  cases a <;> cases b <;> simp_all

theorem normalize_boolean_bool (b : Bool) : normalize_boolean (PVal.bool b) = some b := rfl

/-! ## Claim theorems -/

/-- Claim C1: `_check_monetary_within_tolerance` returns null when the
actual value is null; at `actual = 0` it returns true iff the prediction
is exactly 0; a null prediction against a non-null, non-zero actual is
false; otherwise it is true iff `abs(predicted - actual) / actual`
(dividing by the signed actual) is at most the tolerance, inclusively;
and the default tolerance is 0.10. -/
theorem claim_c1_monetary_tolerance (tolerance : ℚ) (predicted : Option ℚ) :
    check_monetary_within_tolerance tolerance predicted none = none ∧
    (check_monetary_within_tolerance tolerance predicted (some 0) = some true ↔
      predicted = some 0) ∧
    (∀ a : ℚ, a ≠ 0 →
      check_monetary_within_tolerance tolerance none (some a) = some false) ∧
    (∀ a p : ℚ, a ≠ 0 →
      (check_monetary_within_tolerance tolerance (some p) (some a) = some true ↔
        |p - a| / a ≤ tolerance)) ∧
    TOLERANCE = 1 / 10 ∧ default_tolerance = 1 / 10 := by
  refine ⟨rfl, ?_, ?_, ?_, by norm_num [TOLERANCE], by norm_num [default_tolerance]⟩
  · simp [check_monetary_within_tolerance]
  · intro a ha
    simp [check_monetary_within_tolerance, ha]
  · intro a p ha
    simp [check_monetary_within_tolerance, ha]

/-- Witness for C1 at the spec's end-to-end scenario 2: a prediction of
370000 against an actual of 373885 is within the 10% tolerance. -/
theorem claim_c1_witness :
    ((373885 : ℚ) ≠ 0 ∧ |(370000 : ℚ) - 373885| / 373885 ≤ 1 / 10) ∧
    check_monetary_within_tolerance (1 / 10) (some 370000) (some 373885) = some true := by
  refine ⟨⟨by norm_num, by norm_num⟩, ?_⟩
  exact ((claim_c1_monetary_tolerance (1 / 10) (some 370000)).2.2.2.1 373885 370000
    (by norm_num)).mpr (by norm_num)

/-- Claim C10: for a strictly negative actual value and any non-null
prediction, the check always returns true for any non-negative tolerance,
because the error ratio divides by the signed actual and is therefore
non-positive. -/
theorem claim_c10_negative_actual (tolerance p a : ℚ) (htol : 0 ≤ tolerance) (ha : a < 0) :
    check_monetary_within_tolerance tolerance (some p) (some a) = some true := by
  have hne : a ≠ 0 := ne_of_lt ha
  simp only [check_monetary_within_tolerance, if_neg hne, Option.some.injEq]
  rw [decide_eq_true_eq]
  exact le_trans (div_nonpos_of_nonneg_of_nonpos (abs_nonneg _) ha.le) htol

/-- Witness for C10: a prediction of one billion against an actual of -5
passes the 10% tolerance check. -/
theorem claim_c10_witness :
    ((0 : ℚ) ≤ 1 / 10 ∧ (-5 : ℚ) < 0) ∧
    check_monetary_within_tolerance (1 / 10) (some 1000000000) (some (-5)) = some true :=
  ⟨⟨by norm_num, by norm_num⟩,
    claim_c10_negative_actual (1 / 10) 1000000000 (-5) (by norm_num) (by norm_num)⟩

/-- Claim C8: on empty or null input text, `extract` yields resolution
type "ongoing", null for all three monetary fields, and false for all
three boolean flags (and, being a total function, never raises). -/
theorem claim_c8_empty_extract (text : Option (List Char))
    (h : text = none ∨ text = some ([] : List Char)) :
    extract text =
      ⟨"ongoing".data, none, none, none, false, false, false⟩ := by
  rcases h with rfl | rfl <;> rfl

/-- Witness for C8 at the empty string. -/
theorem claim_c8_witness :
    (some ([] : List Char) = none ∨ some ([] : List Char) = some ([] : List Char)) ∧
    extract (some ([] : List Char)) =
      ⟨"ongoing".data, none, none, none, false, false, false⟩ :=
  ⟨Or.inr rfl, claim_c8_empty_extract (some []) (Or.inr rfl)⟩

/-- Claim C2: `extract_resolution_type` is the claimed first-match-wins
decision list over case-insensitive substring tests ("settled" on
"settled action" or consent-and-judgment; otherwise "litigated" on
"final judgment", jury-and-verdict, or "dismiss"; otherwise "ongoing");
in particular a text containing both "consent" and "judgment" but not
"settled action" yields "settled" even when litigated triggers are also
present. -/
theorem claim_c2_resolution_type (text : Option (List Char)) :
    extract_resolution_type text = resolution_type_claimed text ∧
    ((containsSub "consent".data (lowerStr (text.getD [])) = true ∧
      containsSub "judgment".data (lowerStr (text.getD [])) = true ∧
      containsSub "settled action".data (lowerStr (text.getD [])) = false) →
      extract_resolution_type text = "settled".data) := by
  have main : extract_resolution_type text = resolution_type_claimed text := by
    cases text with
    | none => rfl
    | some t =>
      by_cases ht : t = []
      · subst ht; rfl
      · have hfal : isFalsyText (some t) = false := by
          simp [isFalsyText, List.isEmpty_iff, ht]
        have habs1 :
            (containsSub "settled action".data (lowerStr t) ||
              containsSub "filed settled action".data (lowerStr t)) =
            containsSub "settled action".data (lowerStr t) :=
          bool_or_absorb _ _ fun h => containsSub_trans (by decide) h
        have habs2 :
            (containsSub "dismiss".data (lowerStr t) ||
              containsSub "dismissed with prejudice".data (lowerStr t)) =
            containsSub "dismiss".data (lowerStr t) :=
          bool_or_absorb _ _ fun h => containsSub_trans (by decide) h
        simp only [extract_resolution_type, resolution_type_claimed, hfal,
          Bool.false_eq_true, if_false, Option.getD_some, habs1, habs2]
        generalize containsSub "settled action".data (lowerStr t) = A
        generalize (containsSub "consent".data (lowerStr t) &&
          containsSub "judgment".data (lowerStr t)) = B
        generalize containsSub "final judgment".data (lowerStr t) = C
        generalize (containsSub "jury".data (lowerStr t) &&
          containsSub "verdict".data (lowerStr t)) = D
        generalize containsSub "dismiss".data (lowerStr t) = E
        cases A <;> cases B <;> cases C <;> cases D <;> cases E <;> rfl
  refine ⟨main, fun h => ?_⟩
  rw [main]
  simp only [resolution_type_claimed, h.1, h.2.1, h.2.2, Bool.and_self, Bool.or_true,
    if_true]

/-- Witness for C2 on a text holding "consent", "judgment" and the
litigated trigger "final judgment" but not "settled action": the first
rule still wins and the result is "settled". -/
theorem claim_c2_witness :
    (containsSub "consent".data
        (lowerStr ((some "The defendants Consented to entry of a Final Judgment".data).getD [])) = true ∧
      containsSub "judgment".data
        (lowerStr ((some "The defendants Consented to entry of a Final Judgment".data).getD [])) = true ∧
      containsSub "settled action".data
        (lowerStr ((some "The defendants Consented to entry of a Final Judgment".data).getD [])) = false) ∧
    extract_resolution_type
      (some "The defendants Consented to entry of a Final Judgment".data) = "settled".data := by
  refine ⟨⟨by decide, by decide, by decide⟩, ?_⟩
  exact (claim_c2_resolution_type
    (some "The defendants Consented to entry of a Final Judgment".data)).2
    ⟨by decide, by decide, by decide⟩

/-- Counterexample to claim C4: with the string "yes" on both sides of
`has_injunction`, both sides normalize to `true`, yet `compare_single`
marks the field incorrect — the ground-truth side is compared raw, and in
Python `True == "yes"` is false. -/
theorem claim_c4_counterexample :
    normalize_boolean (PVal.str "yes".data) = some true ∧
    (compare_single (1 / 10) "case".data
        [("has_injunction".data, PVal.str "yes".data)]
        [("has_injunction".data, PVal.str "yes".data)]).injunction_correct =
      some false := by
  constructor
  · rfl
  · decide

/-- Claim C4 as amended: for each boolean field, `compare_single` sets the
correctness to null when the ground-truth value is null, and otherwise to
the Python equality of the *normalized prediction* against the *raw*
ground-truth value; when the ground-truth value is a native boolean this
coincides with comparing both sides after `normalize_boolean`. -/
theorem claim_c4_boolean_fields (tolerance : ℚ) (case_id : List Char)
    (predicted ground_truth : List (List Char × PVal)) :
    (pyGet ground_truth "has_injunction".data = PVal.none →
      (compare_single tolerance case_id predicted ground_truth).injunction_correct = none) ∧
    (pyGet ground_truth "has_injunction".data ≠ PVal.none →
      (compare_single tolerance case_id predicted ground_truth).injunction_correct =
        some (pyEqOptBool (normalize_boolean (pyGet predicted "has_injunction".data))
          (pyGet ground_truth "has_injunction".data))) ∧
    (∀ b, pyGet ground_truth "has_injunction".data = PVal.bool b →
      (compare_single tolerance case_id predicted ground_truth).injunction_correct =
        some (normalize_boolean (pyGet predicted "has_injunction".data) ==
          normalize_boolean (PVal.bool b))) ∧
    (pyGet ground_truth "has_officer_director_bar".data = PVal.none →
      (compare_single tolerance case_id predicted ground_truth).officer_bar_correct = none) ∧
    (pyGet ground_truth "has_officer_director_bar".data ≠ PVal.none →
      (compare_single tolerance case_id predicted ground_truth).officer_bar_correct =
        some (pyEqOptBool (normalize_boolean (pyGet predicted "has_officer_director_bar".data))
          (pyGet ground_truth "has_officer_director_bar".data))) ∧
    (∀ b, pyGet ground_truth "has_officer_director_bar".data = PVal.bool b →
      (compare_single tolerance case_id predicted ground_truth).officer_bar_correct =
        some (normalize_boolean (pyGet predicted "has_officer_director_bar".data) ==
          normalize_boolean (PVal.bool b))) ∧
    (pyGet ground_truth "has_conduct_restriction".data = PVal.none →
      (compare_single tolerance case_id predicted ground_truth).conduct_restriction_correct =
        none) ∧
    (pyGet ground_truth "has_conduct_restriction".data ≠ PVal.none →
      (compare_single tolerance case_id predicted ground_truth).conduct_restriction_correct =
        some (pyEqOptBool (normalize_boolean (pyGet predicted "has_conduct_restriction".data))
          (pyGet ground_truth "has_conduct_restriction".data))) ∧
    (∀ b, pyGet ground_truth "has_conduct_restriction".data = PVal.bool b →
      (compare_single tolerance case_id predicted ground_truth).conduct_restriction_correct =
        some (normalize_boolean (pyGet predicted "has_conduct_restriction".data) ==
          normalize_boolean (PVal.bool b))) := by
  refine ⟨?_, ?_, ?_, ?_, ?_, ?_, ?_, ?_, ?_⟩ <;> intro h
  case _ => simp [compare_single, h]
  case _ =>
    rcases hv : pyGet ground_truth "has_injunction".data with _ | b | q | s
    · exact absurd hv h
    all_goals simp [compare_single, hv]
  case _ =>
    intro hb
    rcases hn : normalize_boolean (pyGet predicted "has_injunction".data) with _ | c <;>
      simp [compare_single, hb, hn, pyEqOptBool, normalize_boolean_bool]
  case _ => simp [compare_single, h]
  case _ =>
    rcases hv : pyGet ground_truth "has_officer_director_bar".data with _ | b | q | s
    · exact absurd hv h
    all_goals simp [compare_single, hv]
  case _ =>
    intro hb
    rcases hn : normalize_boolean (pyGet predicted "has_officer_director_bar".data) with _ | c <;>
      simp [compare_single, hb, hn, pyEqOptBool, normalize_boolean_bool]
  case _ => simp [compare_single, h]
  case _ =>
    rcases hv : pyGet ground_truth "has_conduct_restriction".data with _ | b | q | s
    · exact absurd hv h
    all_goals simp [compare_single, hv]
  case _ =>
    intro hb
    rcases hn : normalize_boolean (pyGet predicted "has_conduct_restriction".data) with _ | c <;>
      simp [compare_single, hb, hn, pyEqOptBool, normalize_boolean_bool]

/-- Witness for the amended C4: a native-boolean ground truth compared
against a predicted "yes" string is scored as the match of the two
normalized values. -/
theorem claim_c4_witness :
    pyGet [("has_injunction".data, PVal.bool true)] "has_injunction".data = PVal.bool true ∧
    (compare_single (1 / 10) "case".data
        [("has_injunction".data, PVal.str "yes".data)]
        [("has_injunction".data, PVal.bool true)]).injunction_correct = some true := by
  constructor
  · rfl
  · rw [(claim_c4_boolean_fields (1 / 10) "case".data
      [("has_injunction".data, PVal.str "yes".data)]
      [("has_injunction".data, PVal.bool true)]).2.2.1 true rfl]
    decide

theorem countOne_eq (o : Option Bool) : countOne o = if o.isSome then 1 else 0 := by
  cases o <;> rfl

theorem countTrue_eq (o : Option Bool) : countTrue o = if o == some true then 1 else 0 := by
  rcases o with _ | b
  · rfl
  · cases b <;> rfl

theorem foldl_tally (l : List PredictionResult) :
    ∀ c : Counts, l.foldl tallyResult c = addCounts c (countsOf l) := by
  induction l with
  | nil =>
    intro c
    cases c
    simp [addCounts, countsOf]
  | cons r t ih =>
    intro c
    rw [List.foldl_cons, ih]
    cases c
    simp only [addCounts, countsOf, tallyResult, List.countP_cons, countOne_eq, countTrue_eq,
      Counts.mk.injEq]
    and_intros <;> omega

theorem scoreLoop_eq (l : List PredictionResult) : scoreLoop l = countsOf l := by
  rw [scoreLoop, foldl_tally]
  cases h : countsOf l
  simp [addCounts, Counts.init]

theorem countsOf_perm {l1 l2 : List PredictionResult} (h : l1.Perm l2) :
    countsOf l1 = countsOf l2 := by
  simp only [countsOf, Counts.mk.injEq]
  and_intros <;> exact h.countP_eq _

/-- Claim C5: `calculate_model_score` is invariant under permutation of
its input collection — every accuracy, composite, count and the overall
score of the resulting `ModelScore` agree. -/
theorem claim_c5_permutation_invariance (model_name : List Char)
    {l1 l2 : List PredictionResult} (h : l1.Perm l2) :
    calculate_model_score model_name l1 = calculate_model_score model_name l2 := by
  simp only [calculate_model_score, scoreLoop_eq, countsOf_perm h, h.length_eq]

/-- Witness for C5 on a two-element collection and its swap. -/
theorem claim_c5_witness :
    ([({ case_id := "a".data, resolution_type_correct := some true } : PredictionResult),
      { case_id := "b".data, injunction_correct := some false }].Perm
     [({ case_id := "b".data, injunction_correct := some false } : PredictionResult),
      { case_id := "a".data, resolution_type_correct := some true }]) ∧
    calculate_model_score "m".data
      [{ case_id := "a".data, resolution_type_correct := some true },
       { case_id := "b".data, injunction_correct := some false }] =
    calculate_model_score "m".data
      [{ case_id := "b".data, injunction_correct := some false },
       { case_id := "a".data, resolution_type_correct := some true }] :=
  ⟨List.Perm.swap _ _ _,
    claim_c5_permutation_invariance "m".data (List.Perm.swap _ _ _)⟩

theorem mean_code_eq (l : List ℚ) :
    (if !l.isEmpty then l.sum / l.length else 0) = mean_or_zero l := by
  by_cases h : l.isEmpty <;> simp [mean_or_zero, h]

theorem cond_list3_filter (n1 n2 n3 : Nat) (a1 a2 a3 : ℚ) :
    ((if 0 < n1 then [a1] else []) ++ (if 0 < n2 then [a2] else []) ++
      (if 0 < n3 then [a3] else [])) =
      (([(n1, a1), (n2, a2), (n3, a3)] : List (Nat × ℚ)).filter fun x => x.1 != 0).map
        Prod.snd := by
  by_cases h1 : n1 = 0 <;> by_cases h2 : n2 = 0 <;> by_cases h3 : n3 = 0 <;>
    simp [h1, h2, h3, List.filter_cons, List.filter_nil, bne_iff_ne, ne_eq,
      Nat.pos_iff_ne_zero]

theorem cond_list5_eq (n1 : Nat) (a1 : ℚ) (m : List ℚ) (n3 n4 n5 : Nat) (a3 a4 a5 : ℚ) :
    ((if 0 < n1 then [a1] else []) ++ (if !m.isEmpty then [mean_or_zero m] else []) ++
      (if 0 < n3 then [a3] else []) ++ (if 0 < n4 then [a4] else []) ++
      (if 0 < n5 then [a5] else [])) =
      ((if n1 != 0 then [a1] else []) ++ (if !m.isEmpty then [mean_or_zero m] else []) ++
        (if n3 != 0 then [a3] else []) ++ (if n4 != 0 then [a4] else []) ++
        (if n5 != 0 then [a5] else [])) := by
  by_cases h1 : n1 = 0 <;> by_cases h3 : n3 = 0 <;> by_cases h4 : n4 = 0 <;>
    by_cases h5 : n5 = 0 <;> simp [h1, h3, h4, h5, Nat.pos_iff_ne_zero, bne_iff_ne, ne_eq]

/-- Claim C3: `calculate_model_score` computes each per-field accuracy as
`100 × (count of true) / (count of non-null entries)` (0 when nothing is
scorable), the monetary composite as the unweighted mean of the monetary
per-field accuracies restricted to fields with at least one scorable
case, and the overall score as the unweighted mean over the five
categories, each included only if it had at least one scorable case, with
0 when no category is scorable at all. -/
theorem claim_c3_score_formulas (model_name : List Char) (results : List PredictionResult) :
    calculate_model_score model_name results =
      { model_name := model_name
        resolution_type_accuracy := field_accuracy_spec results fun r => r.resolution_type_correct
        disgorgement_accuracy := field_accuracy_spec results fun r => r.disgorgement_correct
        penalty_accuracy := field_accuracy_spec results fun r => r.penalty_correct
        interest_accuracy := field_accuracy_spec results fun r => r.interest_correct
        injunction_accuracy := field_accuracy_spec results fun r => r.injunction_correct
        officer_bar_accuracy := field_accuracy_spec results fun r => r.officer_bar_correct
        conduct_restriction_accuracy :=
          field_accuracy_spec results fun r => r.conduct_restriction_correct
        monetary_accuracy := mean_or_zero (monetary_fields_spec results)
        overall_score := mean_or_zero (category_list_spec results)
        total_cases := results.length
        resolution_scorable := scorable_count results fun r => r.resolution_type_correct
        disgorgement_scorable := scorable_count results fun r => r.disgorgement_correct
        penalty_scorable := scorable_count results fun r => r.penalty_correct
        interest_scorable := scorable_count results fun r => r.interest_correct } := by
  simp only [calculate_model_score, scoreLoop_eq]
  rw [ModelScore.mk.injEq]
  refine ⟨rfl, rfl, rfl, rfl, rfl, rfl, rfl, rfl, ?_, ?_, rfl, rfl, rfl, rfl, rfl⟩
  · rw [cond_list3_filter, mean_code_eq]
    rfl
  · rw [cond_list3_filter, mean_code_eq, mean_code_eq, cond_list5_eq]
    rfl

theorem pyRound2_den (q : ℚ) : (pyRound2 q * 100).den = 1 := by
  rw [pyRound2, div_mul_cancel₀ _ (by norm_num : (100 : ℚ) ≠ 0)]
  exact Rat.den_intCast _

/-- Counterexample to claim C9: the serialized `scorable_counts` mapping
has five named counts (`total_cases` plus the four per-field counts), not
four. -/
theorem claim_c9_counterexample :
    (JVal.get (ModelScore.to_dict { model_name := "m".data }) "scorable_counts".data).elim 0
        (fun j => j.keys.length) = 5 ∧
    ¬ (JVal.get (ModelScore.to_dict { model_name := "m".data }) "scorable_counts".data).elim 0
        (fun j => j.keys.length) = 4 := by
  constructor
  · rfl
  · decide

/-- Claim C9 as amended: `to_dict` yields a mapping with keys
`model_name`, `overall_score`, `individual_scores` and `scorable_counts`;
the nested `individual_scores` holds exactly the eight named percentages,
each a rational whose value scaled by 100 is an integer (i.e. rounded to
at most two decimal places); the nested `scorable_counts` holds exactly
five named counts (`total_cases` plus four per-field scorable counts),
each a natural number; and `overall_score` is likewise rounded to two
decimal places. -/
theorem claim_c9_to_dict (s : ModelScore) :
    (ModelScore.to_dict s).keys =
      ["model_name".data, "overall_score".data, "individual_scores".data,
        "scorable_counts".data] ∧
    (∀ j, JVal.get (ModelScore.to_dict s) "individual_scores".data = some j →
      j.keys = ["resolution_type".data, "disgorgement".data, "penalty".data,
        "prejudgment_interest".data, "monetary_average".data, "has_injunction".data,
        "has_officer_director_bar".data, "has_conduct_restriction".data] ∧
      ∀ v ∈ j.values, ∃ q : ℚ, v = JVal.num q ∧ (q * 100).den = 1) ∧
    (∀ j, JVal.get (ModelScore.to_dict s) "scorable_counts".data = some j →
      j.keys = ["total_cases".data, "resolution_type".data, "disgorgement".data,
        "penalty".data, "interest".data] ∧
      ∀ v ∈ j.values, ∃ n : Nat, v = JVal.int n) ∧
    (∀ q, JVal.get (ModelScore.to_dict s) "overall_score".data = some (JVal.num q) →
      (q * 100).den = 1) := by
  refine ⟨rfl, ?_, ?_, ?_⟩
  · intro j hj
    have hq : JVal.get (ModelScore.to_dict s) "individual_scores".data =
        some (JVal.dict
          [("resolution_type".data, JVal.num (pyRound2 s.resolution_type_accuracy)),
           ("disgorgement".data, JVal.num (pyRound2 s.disgorgement_accuracy)),
           ("penalty".data, JVal.num (pyRound2 s.penalty_accuracy)),
           ("prejudgment_interest".data, JVal.num (pyRound2 s.interest_accuracy)),
           ("monetary_average".data, JVal.num (pyRound2 s.monetary_accuracy)),
           ("has_injunction".data, JVal.num (pyRound2 s.injunction_accuracy)),
           ("has_officer_director_bar".data, JVal.num (pyRound2 s.officer_bar_accuracy)),
           ("has_conduct_restriction".data,
             JVal.num (pyRound2 s.conduct_restriction_accuracy))]) := rfl
    rw [hq] at hj
    cases hj
    refine ⟨rfl, ?_⟩
    intro v hv
    simp only [JVal.values, List.map_cons, List.map_nil, List.mem_cons,
      List.not_mem_nil, or_false] at hv
    rcases hv with rfl | rfl | rfl | rfl | rfl | rfl | rfl | rfl <;>
      exact ⟨_, rfl, pyRound2_den _⟩
  · intro j hj
    have hq : JVal.get (ModelScore.to_dict s) "scorable_counts".data =
        some (JVal.dict
          [("total_cases".data, JVal.int s.total_cases),
           ("resolution_type".data, JVal.int s.resolution_scorable),
           ("disgorgement".data, JVal.int s.disgorgement_scorable),
           ("penalty".data, JVal.int s.penalty_scorable),
           ("interest".data, JVal.int s.interest_scorable)]) := rfl
    rw [hq] at hj
    cases hj
    refine ⟨rfl, ?_⟩
    intro v hv
    simp only [JVal.values, List.map_cons, List.map_nil, List.mem_cons,
      List.not_mem_nil, or_false] at hv
    rcases hv with rfl | rfl | rfl | rfl | rfl <;> exact ⟨_, rfl⟩
  · intro q hq
    have h : JVal.get (ModelScore.to_dict s) "overall_score".data =
        some (JVal.num (pyRound2 s.overall_score)) := rfl
    rw [h] at hq
    injection hq with h1
    injection h1 with h2
    exact h2 ▸ pyRound2_den s.overall_score

/-- Witness for the amended C9 at a default-initialized score. -/
theorem claim_c9_witness :
    JVal.get (ModelScore.to_dict { model_name := "m".data }) "scorable_counts".data =
      some (JVal.dict
        [("total_cases".data, JVal.int 0), ("resolution_type".data, JVal.int 0),
         ("disgorgement".data, JVal.int 0), ("penalty".data, JVal.int 0),
         ("interest".data, JVal.int 0)]) ∧
    (JVal.dict
        [("total_cases".data, JVal.int 0), ("resolution_type".data, JVal.int 0),
         ("disgorgement".data, JVal.int 0), ("penalty".data, JVal.int 0),
         ("interest".data, JVal.int 0)] : JVal).keys =
      ["total_cases".data, "resolution_type".data, "disgorgement".data, "penalty".data,
        "interest".data] := by
  refine ⟨rfl, ?_⟩
  exact ((claim_c9_to_dict { model_name := "m".data }).2.2.1 _ rfl).1

theorem scanKeyword_eq (text text_lower keyword : List Char) :
    ∀ fuel pos : Nat,
      scanKeyword text text_lower keyword pos fuel =
        (keywordOccurrences text_lower keyword pos fuel).findSome? fun p =>
          windowCheck ((text.drop p).take 200) := by
  intro fuel
  induction fuel with
  | zero => intro pos; rfl
  | succ n ih =>
    intro pos
    rcases h : findPos text_lower keyword pos with _ | p
    · simp [scanKeyword, keywordOccurrences, h]
    · rcases hw : windowCheck ((text.drop p).take 200) with _ | r <;>
        simp [scanKeyword, keywordOccurrences, h, hw, List.findSome?, ih]

theorem scanKeywords_eq (text text_lower : List Char) :
    ∀ kws : List (List Char),
      scanKeywords text text_lower kws =
        kws.findSome? fun kw =>
          (keywordOccurrences text_lower kw 0 (text.length + 1)).findSome? fun p =>
            windowCheck ((text.drop p).take 200) := by
  intro kws
  induction kws with
  | nil => rfl
  | cons kw rest ih =>
    rcases h : (keywordOccurrences text_lower kw 0 (text.length + 1)).findSome? (fun p =>
        windowCheck ((text.drop p).take 200)) with _ | r <;>
      simp [scanKeywords, scanKeyword_eq, h, ih, List.findSome?]

theorem scanKeywords_nil_text :
    ∀ kws : List (List Char), (∀ kw ∈ kws, kw ≠ ([] : List Char)) →
      scanKeywords [] [] kws = none := by
  intro kws
  induction kws with
  | nil => intro _; rfl
  | cons kw rest ih =>
    intro h
    have hkw : kw ≠ ([] : List Char) := h kw (List.mem_cons_self kw rest)
    rcases kw with _ | ⟨c, t⟩
    · exact absurd rfl hkw
    · have h1 : scanKeyword [] [] (c :: t) 0 (([] : List Char).length + 1) = none := rfl
      simp only [scanKeywords, h1]
      exact ih fun k hk => h k (List.mem_cons_of_mem _ hk)

/-- Counterexample to claim C6: in the text
"penalty of $, penalty of $5" the first keyword occurrence's window
matches the bare pattern with the digit-free group ",", whose parse fails,
and the extractor returns null immediately — even though a keyword/amount
pair ("penalty of" followed by "$5") exists later in the very same text,
as the second conjunct shows by running the extractor on that tail. -/
theorem claim_c6_counterexample :
    extract_amount_after_keyword (some "penalty of $, penalty of $5".data)
      ["penalty of".data] = none ∧
    extract_amount_after_keyword (some "penalty of $5".data) ["penalty of".data] = some 5 := by
  constructor
  · decide
  · with_unfolding_all rfl

/-- Claim C6 as amended: the extractor checks keywords in list order and
occurrences in scan order, inspecting the 200-character window cut at each
occurrence and trying "$N billion", "$N million", then bare "$N" in
priority order; the first window at which any pattern matches decides the
result, which is the parse of that match (null when the captured group
contains no digits, in which case the scan stops rather than continuing). -/
theorem claim_c6_scan_order (text : Option (List Char)) (keywords : List (List Char))
    (hk : ∀ kw ∈ keywords, kw ≠ ([] : List Char)) :
    extract_amount_after_keyword text keywords = extract_amount_claimed text keywords := by
  have hclaimed : extract_amount_claimed text keywords =
      (scanKeywords (text.getD []) (lowerStr (text.getD [])) keywords).join := by
    simp only [extract_amount_claimed]
    rw [scanKeywords_eq]
  by_cases hfal : isFalsyText text = true
  · have ht : text.getD [] = [] := by
      rcases text with _ | t
      · rfl
      · simpa [isFalsyText, List.isEmpty_iff] using hfal
    rw [extract_amount_after_keyword, if_pos hfal, hclaimed, ht]
    rw [show lowerStr [] = [] from rfl, scanKeywords_nil_text keywords hk]
    rfl
  · rw [extract_amount_after_keyword, if_neg hfal, hclaimed]
    rcases hs : scanKeywords (text.getD []) (lowerStr (text.getD [])) keywords with _ | r <;>
      simp [hs, Option.join]

/-- Witness for the amended C6 on a nonempty keyword list and a text with
a billion-denominated amount. -/
theorem claim_c6_witness :
    (∀ kw ∈ [("penalty of".data : List Char)], kw ≠ ([] : List Char)) ∧
    extract_amount_after_keyword (some "a penalty of $2.5 billion was paid".data)
        ["penalty of".data] =
      extract_amount_claimed (some "a penalty of $2.5 billion was paid".data)
        ["penalty of".data] := by
  refine ⟨by decide, ?_⟩
  exact claim_c6_scan_order (some "a penalty of $2.5 billion was paid".data)
    ["penalty of".data] (by decide)

theorem tryCandidates_eq_none :
    ∀ cands : List (List Char),
      (∀ c ∈ cands, ∀ j, jsonLoads c = some j →
        j.hasKey "resolution_type".data = false ∧ j.hasKey "has_injunction".data = false) →
      tryCandidates cands = none := by
  intro cands
  induction cands with
  | nil => intro _; rfl
  | cons c rest ih =>
    intro h
    have hrest : tryCandidates rest = none :=
      ih fun k hk => h k (List.mem_cons_of_mem _ hk)
    rcases hj : jsonLoads c with _ | j
    · simp [tryCandidates, hj, hrest]
    · have hk := h c (List.mem_cons_self c rest) j hj
      simp [tryCandidates, hj, hk.1, hk.2, hrest]

/-- Claim C7: `parse_llm_response` tries the fenced-block strategy, then
whole-text JSON, then the brace-delimited candidates (accepting the first
that parses and holds an expected key); whenever all three strategies
fail, it returns the empty mapping — and, being a total function over
strings, it never raises. -/
theorem claim_c7_parser_fallback (response_text : List Char)
    (h1 : ∀ g, fencedGroup response_text = some g → jsonLoads g = none)
    (h2 : jsonLoads response_text = none)
    (h3 : ∀ c ∈ braceFindAll (response_text.length + 1) response_text,
      ∀ j, jsonLoads c = some j →
        j.hasKey "resolution_type".data = false ∧ j.hasKey "has_injunction".data = false) :
    parse_llm_response response_text = Json.obj [] := by
  have htail : parseLlmTail response_text = Json.obj [] := by
    rw [parseLlmTail, h2, tryCandidates_eq_none _ h3]
  rw [parse_llm_response]
  rcases hf : fencedGroup response_text with _ | g
  · exact htail
  · show (match jsonLoads g with
      | some j => j
      | Option.none => parseLlmTail response_text) = Json.obj []
    rw [h1 g hf]
    exact htail

/-- Witness for C7 on a response with no fence, no top-level JSON, and a
single brace candidate that is not valid JSON. -/
theorem claim_c7_witness :
    ((∀ g, fencedGroup "no json here \x7boops\x7d !".data = some g → jsonLoads g = none) ∧
      jsonLoads "no json here \x7boops\x7d !".data = none ∧
      (∀ c ∈ braceFindAll ("no json here \x7boops\x7d !".data.length + 1)
          "no json here \x7boops\x7d !".data,
        ∀ j, jsonLoads c = some j →
          j.hasKey "resolution_type".data = false ∧
          j.hasKey "has_injunction".data = false)) ∧
    parse_llm_response "no json here \x7boops\x7d !".data = Json.obj [] := by
  have hf : fencedGroup "no json here \x7boops\x7d !".data = none := rfl
  have h1 : ∀ g, fencedGroup "no json here \x7boops\x7d !".data = some g →
      jsonLoads g = none := fun g h => Option.noConfusion (hf.symm.trans h)
  have h2 : jsonLoads "no json here \x7boops\x7d !".data = none := rfl
  have h3 : ∀ c ∈ braceFindAll ("no json here \x7boops\x7d !".data.length + 1)
      "no json here \x7boops\x7d !".data,
      ∀ j, jsonLoads c = some j →
        j.hasKey "resolution_type".data = false ∧
        j.hasKey "has_injunction".data = false := by
    intro c hc j hj
    have hall : braceFindAll ("no json here \x7boops\x7d !".data.length + 1)
        "no json here \x7boops\x7d !".data = ["\x7boops\x7d".data] := rfl
    rw [hall] at hc
    simp only [List.mem_cons, List.not_mem_nil, or_false] at hc
    subst hc
    rw [show jsonLoads "\x7boops\x7d".data = none from rfl] at hj
    exact Option.noConfusion hj
  exact ⟨⟨h1, h2, h3⟩, claim_c7_parser_fallback _ h1 h2 h3⟩

end LexArena
